import Mathlib

/-!
Verification development for the event-report generator (src/app.py).

The file shallow-embeds the parts of the program that the specification
claims talk about:

* the text wrapper used by the PDF builder, which is the Python standard
  library function textwrap.wrap called as wrap(text, 100) with default
  options (expand_tabs, replace_whitespace, drop_whitespace,
  break_long_words all true, no indents, max_lines unset);
* the DOCX builder build_docx, modelled as a pure function from the form
  data and the decode outcomes of the images to a list of document blocks;
* the PDF builder build_pdf, modelled as a pure function producing the list
  of drawing events (strings with their positions, images, page breaks);
* the generate and download route bodies, modelled over abstract build
  outcomes and an abstract output-directory listing.

Strings are modelled as lists of characters where convenient; machine reals
(Python floats) are modelled as exact rationals.  The reportlab A4 page size
is 210mm x 297mm at 72/25.4 points per millimetre, which is the exact
rational 75600/127 by 106920/127; every y coordinate the painter computes is
that constant minus an integer, so it is never equal to a comparison
threshold and the float rounding of the original cannot flip any of the
strict comparisons modelled here.
-/

namespace App

/-! ## Python textwrap embedding

Model of textwrap.wrap with the default options used by app.py line 220.
Whitespace classification is restricted to the ASCII whitespace characters;
the program only feeds form text through this path and no claim depends on
exotic Unicode whitespace.
-/

/-- The characters of the Python textwrap module whitespace string. -/
def pyIsSpace (c : Char) : Bool :=
  c = ' ' || c = '\t' || c = '\n' || c = '\x0b' || c = '\x0c' || c = '\r'

/-- str.expandtabs(8): a tab advances the column to the next multiple of 8,
newline and carriage return reset the column. -/
def expandTabsGo : Nat → List Char → List Char
  | _, [] => []
  | col, c :: cs =>
    if c = '\t' then
      List.replicate (8 - col % 8) ' ' ++ expandTabsGo (col + (8 - col % 8)) cs
    else if c = '\n' || c = '\r' then
      c :: expandTabsGo 0 cs
    else
      c :: expandTabsGo (col + 1) cs

def expandTabs (l : List Char) : List Char := expandTabsGo 0 l

/-- TextWrapper._munge_whitespace: expand tabs, then translate each of the
whitespace characters to a plain space. -/
def mungeWhitespace (l : List Char) : List Char :=
  (expandTabs l).map (fun c => if pyIsSpace c then ' ' else c)

/-- Splitting of the munged text into chunks: maximal runs of whitespace and
of non-whitespace.  The stdlib default splitter additionally cuts hyphenated
words into smaller chunks; the line-length theorems below are proved for
every possible chunk list (lemma buildLine_sumLen quantifies over chunks),
so that extra granularity cannot affect them. -/
def splitRunsGo (cls : Bool) (acc : List Char) : List Char → List (List Char)
  | [] => [acc.reverse]
  | c :: cs =>
    if pyIsSpace c = cls then splitRunsGo cls (c :: acc) cs
    else acc.reverse :: splitRunsGo (pyIsSpace c) [c] cs

def splitRuns : List Char → List (List Char)
  | [] => []
  | c :: cs => splitRunsGo (pyIsSpace c) [c] cs

/-- Total character length of a chunk list. -/
def sumLen (l : List (List Char)) : Nat := (l.map List.length).sum

/-- The greedy inner loop of TextWrapper._wrap_chunks: take chunks onto the
current line while the accumulated length stays within the width. -/
def greedyTake (width : Nat) : Nat → List (List Char) → List (List Char) × List (List Char)
  | _, [] => ([], [])
  | curLen, ch :: rest =>
    if curLen + ch.length ≤ width then
      (ch :: (greedyTake width (curLen + ch.length) rest).1,
       (greedyTake width (curLen + ch.length) rest).2)
    else
      ([], ch :: rest)

/-- str.rfind of the hyphen character: index of its last occurrence. -/
def rfindHyphenGo : Nat → Option Nat → List Char → Option Nat
  | _, acc, [] => acc
  | i, acc, c :: cs => rfindHyphenGo (i + 1) (if c = '-' then some i else acc) cs

def rfindHyphen (l : List Char) : Option Nat := rfindHyphenGo 0 none l

/-- TextWrapper._handle_long_word with break_long_words and break_on_hyphens
true: cut the chunk at the space left on the line, preferring to cut just
after a hyphen when one occurs inside the retained prefix after a
non-hyphen character.  Returns the piece kept on the line and the rest. -/
def handleLongWord (width curLen : Nat) (chunk : List Char) : List Char × List Char :=
  let spaceLeft := if width < 1 then 1 else width - curLen
  let stop :=
    if spaceLeft < chunk.length then
      match rfindHyphen (chunk.take spaceLeft) with
      | some hy =>
        if 0 < hy ∧ (chunk.take hy).any (fun c => c != '-') then hy + 1 else spaceLeft
      | none => spaceLeft
    else spaceLeft
  (chunk.take stop, chunk.drop stop)

/-- One line-building step of _wrap_chunks: the greedy loop, then the long
word handler when the next chunk alone exceeds the width. -/
def buildLine (width : Nat) (chunks : List (List Char)) : List (List Char) × List (List Char) :=
  match greedyTake width 0 chunks with
  | (tk, []) => (tk, [])
  | (tk, c2 :: r2) =>
    if width < c2.length then
      (tk ++ [(handleLongWord width (sumLen tk) c2).1],
       (handleLongWord width (sumLen tk) c2).2 :: r2)
    else (tk, c2 :: r2)

/-- drop_whitespace at the start of a line: only applied once a line has
already been produced (the lines list is non-empty in the source). -/
def dropLeadingWs (isFirst : Bool) (chunks : List (List Char)) : List (List Char) :=
  match isFirst, chunks with
  | false, ch :: chs => if ch.all pyIsSpace then chs else ch :: chs
  | _, chs => chs

/-- drop_whitespace at the end of the current line. -/
def dropTrailingWs (l : List (List Char)) : List (List Char) :=
  match l.getLast? with
  | some lc => if lc.all pyIsSpace then l.dropLast else l
  | none => l

/-- The outer loop of TextWrapper._wrap_chunks.  The recursion is driven by
fuel; wrapChunks below supplies one unit of fuel per chunk plus one per
character, which is an upper bound on the number of iterations because every
iteration either consumes a chunk or shortens the front chunk. -/
def wrapChunksGo (width : Nat) : Nat → Bool → List (List Char) → List (List Char)
  | 0, _, _ => []
  | _ + 1, _, [] => []
  | fuel + 1, isFirst, ch :: chs =>
    let chunks1 := dropLeadingWs isFirst (ch :: chs)
    match buildLine width chunks1 with
    | (tk2, rest2) =>
      let tk3 := dropTrailingWs tk2
      if tk3.isEmpty then wrapChunksGo width fuel isFirst rest2
      else tk3.flatten :: wrapChunksGo width fuel false rest2

def wrapChunks (width : Nat) (chunks : List (List Char)) : List (List Char) :=
  wrapChunksGo width (sumLen chunks + chunks.length + 1) true chunks

/-- textwrap.wrap(text, width) as called by build_pdf.  For width 0 the
original raises ValueError; the claims only concern width at least 1. -/
def pyWrap (s : String) (width : Nat) : List String :=
  (wrapChunks width (splitRuns (mungeWhitespace s.toList))).map String.mk

/-! ### Line length bound for the wrapper -/

theorem sumLen_nil : sumLen [] = 0 := rfl

theorem sumLen_cons (a : List Char) (l : List (List Char)) :
    sumLen (a :: l) = a.length + sumLen l := by
  simp [sumLen]

theorem sumLen_append (l₁ l₂ : List (List Char)) :
    sumLen (l₁ ++ l₂) = sumLen l₁ + sumLen l₂ := by
  simp [sumLen]

theorem greedyTake_sumLen (l : List (List Char)) (width : Nat) :
    ∀ curLen, (greedyTake width curLen l).1 = [] ∨
      curLen + sumLen (greedyTake width curLen l).1 ≤ width := by
  induction l with
  | nil => intro curLen; left; rfl
  | cons ch rest ih =>
    intro curLen
    by_cases h : curLen + ch.length ≤ width
    · right
      have hrec := ih (curLen + ch.length)
      simp only [greedyTake, if_pos h]
      rcases hrec with h0 | hle
      · rw [h0, sumLen_cons, sumLen_nil]; omega
      · rw [sumLen_cons]; omega
    · left; simp only [greedyTake, if_neg h]

theorem rfindHyphenGo_lt (l : List Char) :
    ∀ (i : Nat) (acc : Option Nat), (∀ j, acc = some j → j < i) →
      ∀ h, rfindHyphenGo i acc l = some h → h < i + l.length := by
  induction l with
  | nil =>
    intro i acc hacc h hrun
    have := hacc h hrun
    simpa using Nat.lt_of_lt_of_le this (Nat.le_add_right i 0)
  | cons c cs ih =>
    intro i acc hacc h hrun
    simp only [rfindHyphenGo] at hrun
    have hstep : ∀ j, (if c = '-' then some i else acc) = some j → j < i + 1 := by
      intro j hj
      by_cases hc : c = '-'
      · rw [if_pos hc] at hj
        injection hj with hj'
        omega
      · rw [if_neg hc] at hj
        exact Nat.lt_succ_of_lt (hacc j hj)
    have := ih (i + 1) _ hstep h hrun
    simp only [List.length_cons]
    omega

theorem rfindHyphen_lt (l : List Char) (h : Nat) (hh : rfindHyphen l = some h) :
    h < l.length := by
  have := rfindHyphenGo_lt l 0 none (by intro j hj; cases hj) h hh
  simpa using this

theorem handleLongWord_len (width curLen : Nat) (chunk : List Char)
    (hw : 1 ≤ width) (hc : curLen ≤ width) :
    curLen + (handleLongWord width curLen chunk).1.length ≤ width := by
  have hnot : ¬ width < 1 := by omega
  have key : ∀ stop, stop ≤ width - curLen →
      curLen + (chunk.take stop).length ≤ width := by
    intro stop hs
    have hmin : (chunk.take stop).length ≤ stop := by
      rw [List.length_take]; exact Nat.min_le_left _ _
    omega
  simp only [handleLongWord, if_neg hnot]
  by_cases hsl : width - curLen < chunk.length
  · rw [if_pos hsl]
    rcases hfe : rfindHyphen (chunk.take (width - curLen)) with _ | hy
    · simp only [hfe]
      exact key _ (Nat.le_refl _)
    · simp only [hfe]
      by_cases hcond : 0 < hy ∧ (chunk.take hy).any (fun c => c != '-')
      · rw [if_pos hcond]
        have hlt : hy < (chunk.take (width - curLen)).length := rfindHyphen_lt _ _ hfe
        have h2 : hy < width - curLen := by
          rw [List.length_take] at hlt
          exact lt_of_lt_of_le hlt (Nat.min_le_left _ _)
        exact key _ (by omega)
      · rw [if_neg hcond]
        exact key _ (Nat.le_refl _)
  · rw [if_neg hsl]
    exact key _ (Nat.le_refl _)

theorem buildLine_sumLen (width : Nat) (chunks : List (List Char)) (hw : 1 ≤ width) :
    sumLen (buildLine width chunks).1 ≤ width := by
  have hg := greedyTake_sumLen chunks width 0
  have hgle : sumLen (greedyTake width 0 chunks).1 ≤ width := by
    rcases hg with h0 | hle
    · rw [h0, sumLen_nil]; omega
    · omega
  simp only [buildLine]
  split
  · rename_i tk heq
    have : (greedyTake width 0 chunks).1 = tk := by rw [heq]
    rw [← this]; exact hgle
  · rename_i tk c2 r2 heq
    have htk : (greedyTake width 0 chunks).1 = tk := by rw [heq]
    rw [htk] at hgle
    split
    · rename_i hlong
      show sumLen (tk ++ [(handleLongWord width (sumLen tk) c2).1]) ≤ width
      have := handleLongWord_len width (sumLen tk) c2 hw hgle
      rw [sumLen_append, sumLen_cons, sumLen_nil]
      omega
    · exact hgle

theorem sumLen_dropLast_le (l : List (List Char)) : sumLen l.dropLast ≤ sumLen l := by
  induction l with
  | nil => simp [sumLen]
  | cons a t ih =>
    cases t with
    | nil => simp [sumLen]
    | cons b t' =>
      rw [List.dropLast_cons₂, sumLen_cons, sumLen_cons]
      omega

theorem dropTrailingWs_sumLen_le (l : List (List Char)) :
    sumLen (dropTrailingWs l) ≤ sumLen l := by
  simp only [dropTrailingWs]
  split
  · split
    · exact sumLen_dropLast_le l
    · exact Nat.le_refl _
  · exact Nat.le_refl _

theorem flatten_length (l : List (List Char)) : l.flatten.length = sumLen l := by
  rw [List.length_flatten]; rfl

theorem wrapChunksGo_len (fuel : Nat) :
    ∀ (width : Nat), 1 ≤ width → ∀ (isFirst : Bool) (chunks : List (List Char))
      (ln : List Char), ln ∈ wrapChunksGo width fuel isFirst chunks → ln.length ≤ width := by
  induction fuel with
  | zero => intro width _ isFirst chunks ln hmem; simp [wrapChunksGo] at hmem
  | succ fuel ih =>
    intro width hw isFirst chunks ln hmem
    cases chunks with
    | nil => simp [wrapChunksGo] at hmem
    | cons ch chs =>
      simp only [wrapChunksGo] at hmem
      split at hmem
      · exact ih width hw isFirst _ ln hmem
      · rcases List.mem_cons.mp hmem with hhead | htail
        · subst hhead
          rw [flatten_length]
          have h1 := dropTrailingWs_sumLen_le (buildLine width (dropLeadingWs isFirst (ch :: chs))).1
          have h2 := buildLine_sumLen width (dropLeadingWs isFirst (ch :: chs)) hw
          omega
        · exact ih width hw false _ ln htail

/-- C1: for every input string and every width at least 1, each line that
pyWrap (the wrapper used by build_pdf via wrap(text, 100)) produces has
length at most the requested width.  The bound holds without exception: with
break_long_words enabled a word longer than the width is itself cut into
pieces of length at most the width. -/
theorem claim_C1 (s : String) (w : Nat) (hw : 1 ≤ w) :
    ∀ ln ∈ pyWrap s w, ln.length ≤ w := by
  intro ln hln
  simp only [pyWrap, List.mem_map] at hln
  rcases hln with ⟨l, hl, rfl⟩
  have := wrapChunksGo_len (sumLen (splitRuns (mungeWhitespace s.toList)) +
    (splitRuns (mungeWhitespace s.toList)).length + 1) w hw true _ l hl
  simpa [String.length] using this

/-- Witness for C1 at a concrete input: wrapping at width 5 produces the
line hello, whose length is within the width. -/
theorem claim_C1_witness : ("hello" : String).length ≤ 5 :=
  claim_C1 "hello world" 5 (by decide) "hello" (by decide)

/-! ## Data model

EventRecord is the dictionary built in the generate route (app.py lines
336-351): every field is a plain string and every key is always present.
ImageFile stands for a saved image path together with the outcome of
decoding it: dims is the pixel size when the file decodes, none when any
attempt to open or embed it raises. -/

structure EventRecord where
  ref_no : String
  date_ref : String
  title : String
  department : String
  academic_year : String
  date_activity : String
  organized_by : String
  overview : String
  day1 : String
  day2 : String
  learning_outcomes : String
  conclusion : String
  circular_text : String
deriving DecidableEq

structure ImageFile where
  path : String
  dims : Option (ℚ × ℚ)
deriving DecidableEq

/-- os.path.basename for the forward-slash separator. -/
def pyBasename (s : String) : String :=
  String.mk ((s.toList.reverse.takeWhile (fun c => c != '/')).reverse)

/-! ## PDF painter embedding (build_pdf, app.py lines 143-326)

The painter is modelled as the list of drawing events it issues.  A text
draw is recorded with its position; the constructors distinguish the call
sites of the same drawString primitive so that the claims can speak about
the wrapped section lines: fixed covers the one-off strings (titles,
reference line, info table lines, signatures, the unwrapped circular-text
fallback), sectionHeading and sectionLine cover the five wrapped text
sections of the report page.  Font selection is presentational canvas state
that no claim mentions and is not recorded.  The header event stands for
the draw_header call (logo attempt plus centred college name).  gridImage
is the drawInlineImage call of the photo grid, annotated with the loop
indices idx, col and row as specification bookkeeping (the annotation adds
information to the event record; it changes nothing that is drawn). -/

inductive Align where
  | left
  | center
  | right
deriving DecidableEq

inductive PdfEvent where
  | header
  | newPage
  | fixed (x y : ℚ) (a : Align) (s : String)
  | sectionHeading (y : ℚ) (s : String)
  | sectionLine (y : ℚ) (s : String)
  | image (path : String) (x y wd ht : ℚ)
  | gridImage (idx col row : Nat) (path : String) (x y wd ht : ℚ)
deriving DecidableEq

/-- Exact rational value of the reportlab A4 height 297mm. -/
def hA4 : ℚ := 106920 / 127

/-- Exact rational value of the reportlab A4 width 210mm. -/
def wA4 : ℚ := 75600 / 127

/-- One wrapped section line (app.py lines 220-226 and the three copies):
draw the line at the cursor, subtract the line height 14, and when the
cursor has fallen under 120 emit a page break, redraw the header and reset
the cursor to hA4 - 120.  Returns the events and the final cursor. -/
def emitBodyGo : ℚ → List String → List PdfEvent × ℚ
  | y, [] => ([], y)
  | y, ln :: rest =>
    if y - 14 < 120 then
      (PdfEvent.sectionLine y ln :: PdfEvent.newPage :: PdfEvent.header ::
        (emitBodyGo (hA4 - 120) rest).1, (emitBodyGo (hA4 - 120) rest).2)
    else
      (PdfEvent.sectionLine y ln :: (emitBodyGo (y - 14) rest).1,
        (emitBodyGo (y - 14) rest).2)

/-- A report-page text section: 8 points of spacing, the heading, 16 more
points, then the body wrapped at 100 characters. -/
def pdfSection (heading body : String) (y : ℚ) : List PdfEvent × ℚ :=
  (PdfEvent.sectionHeading (y - 8) heading ::
    (emitBodyGo (y - 8 - 16) (pyWrap body 100)).1,
   (emitBodyGo (y - 8 - 16) (pyWrap body 100)).2)

/-- An optional section: emitted only when its source text is non-empty
(Python truthiness of the field). -/
def optSection (body heading : String) (y : ℚ) : List PdfEvent × ℚ :=
  if body = "" then ([], y) else pdfSection heading body y

/-- The five key/value lines of the report page, 16 points apart. -/
def emitInfoGo : ℚ → List String → List PdfEvent × ℚ
  | y, [] => ([], y)
  | y, ln :: rest =>
    (PdfEvent.fixed 50 y Align.left ln :: (emitInfoGo (y - 16) rest).1,
      (emitInfoGo (y - 16) rest).2)

def infoLines (d : EventRecord) : List String :=
  ["Name of the activity: " ++ d.title,
   "Department: " ++ d.department,
   "Academic year: " ++ d.academic_year,
   "Date of activity conducted: " ++ d.date_activity,
   "Organized by: " ++ d.organized_by]

/-- Page 1 invitation block: the image scaled to the width wA4 - 100 when
it decodes, otherwise the circular text drawn as one unwrapped string. -/
def pdfInvitation (inv : Option ImageFile) (circ : String) : List PdfEvent :=
  match inv with
  | some f =>
    match f.dims with
    | some (iw, ih) =>
      [PdfEvent.image f.path 50 ((hA4 - 180) - ih * ((wA4 - 100) / iw) - 10)
        (wA4 - 100) (ih * ((wA4 - 100) / iw))]
    | none => [PdfEvent.fixed 50 (hA4 - 180) Align.left circ]
  | none => [PdfEvent.fixed 50 (hA4 - 180) Align.left circ]

/-- Page 1 of build_pdf (lines 163-193). -/
def pdfPage1 (d : EventRecord) (inv : Option ImageFile) : List PdfEvent :=
  PdfEvent.header
    :: PdfEvent.fixed 50 (hA4 - 120) Align.left ("Ref: " ++ d.ref_no)
    :: PdfEvent.fixed (wA4 - 50) (hA4 - 120) Align.right ("Date: " ++ d.date_ref)
    :: PdfEvent.fixed 50 (hA4 - 150) Align.left "CIRCULAR"
    :: (pdfInvitation inv d.circular_text
        ++ [PdfEvent.fixed 50 120 Align.left "HoD\t\t\t\tPRINCIPAL", PdfEvent.newPage])

/-- Page 2 of build_pdf (lines 195-290): titles, the five info lines from
y = hA4 - 170, then the wrapped sections, then the fixed signatures and the
page break.  Returns the events together with the final value of the
cursor, which build_pdf leaves in scope for the photo grid. -/
def pdfPage2 (d : EventRecord) : List PdfEvent × ℚ :=
  match emitInfoGo (hA4 - 170) (infoLines d) with
  | (iEvs, y1) =>
  match pdfSection "Workshop Overview:" d.overview y1 with
  | (ovEvs, y2) =>
  match optSection d.day1 "Day 1: Fundamentals and Demonstrations" y2 with
  | (d1Evs, y3) =>
  match optSection d.day2 "Day 2: Advanced Troubleshooting and Maintenance" y3 with
  | (d2Evs, y4) =>
  match optSection d.learning_outcomes "Learning Outcomes:" y4 with
  | (loEvs, y5) =>
  match optSection d.conclusion "Conclusion:" y5 with
  | (coEvs, y6) =>
    (PdfEvent.header
      :: PdfEvent.fixed (wA4 / 2) (hA4 - 120) Align.center
           ("DEPARTMENT OF " ++ d.department)
      :: PdfEvent.fixed (wA4 / 2) (hA4 - 140) Align.center "REPORT OF THE EVENT"
      :: (iEvs ++ ovEvs ++ d1Evs ++ d2Evs ++ loEvs ++ coEvs
          ++ [PdfEvent.fixed 50 100 Align.left "HoD",
              PdfEvent.fixed (wA4 - 50) 100 Align.right "PRINCIPAL",
              PdfEvent.newPage]), y6)

/-- Photo grid column width (line 298). -/
def colW : ℚ := (wA4 - 2 * 50 - 20) / 2

/-- Photo grid row height (line 299). -/
def rowH : ℚ := 120

/-- The two column x positions (line 300). -/
def xPos (col : Nat) : ℚ := if col = 0 then 50 else 50 + colW + 20

/-- Aspect-preserving scale factor of a photo in its grid cell. -/
def scaleOf (iw ih : ℚ) : ℚ := min (colW / iw) (rowH / ih)

/-- The photo grid loop of build_pdf (lines 303-323).  y is the bottom edge
of the most recently drawn photo; it is only assigned inside the try block,
so a failed decode leaves it unchanged, and before the first success it
still holds the final cursor of the report page.  After each completed row
the loop compares y - rowH with 120 and, when smaller, emits a page break,
redraws the header, resets yStart and sets the row back to 0. -/
def gridGo (yStart y : ℚ) (col row idx : Nat) : List ImageFile → List PdfEvent
  | [] => []
  | p :: rest =>
    match p.dims with
    | some (iw, ih) =>
      let ht := ih * scaleOf iw ih
      let y2 := yStart - (row : ℚ) * (rowH + 20) - ht
      let ev := PdfEvent.gridImage idx col row p.path
        (xPos col + (colW - iw * scaleOf iw ih) / 2) y2 (iw * scaleOf iw ih) ht
      if col + 1 > 1 then
        if y2 - rowH < 120 then
          ev :: PdfEvent.newPage :: PdfEvent.header ::
            gridGo (hA4 - 160) y2 0 0 (idx + 1) rest
        else
          ev :: gridGo yStart y2 0 (row + 1) (idx + 1) rest
      else
        ev :: gridGo yStart y2 (col + 1) row (idx + 1) rest
    | none =>
      if col + 1 > 1 then
        if y - rowH < 120 then
          PdfEvent.newPage :: PdfEvent.header ::
            gridGo (hA4 - 160) y 0 0 (idx + 1) rest
        else
          gridGo yStart y 0 (row + 1) (idx + 1) rest
      else
        gridGo yStart y (col + 1) row (idx + 1) rest

/-- The grid with its initial state (col = row = 0, yStart = hA4 - 160,
stale cursor y0 inherited from the report page). -/
def pdfGrid (y0 : ℚ) (photos : List ImageFile) : List PdfEvent :=
  gridGo (hA4 - 160) y0 0 0 0 photos

/-- Page 3 of build_pdf (lines 292-323): header, the page title, and the
grid.  There is no other drawing call on this page. -/
def pdfPage3 (y0 : ℚ) (photos : List ImageFile) : List PdfEvent :=
  PdfEvent.header
    :: PdfEvent.fixed (wA4 / 2) (hA4 - 120) Align.center "Event Photographs"
    :: pdfGrid y0 photos

/-- The whole build_pdf event trace. -/
def buildPdf (d : EventRecord) (inv : Option ImageFile) (photos : List ImageFile) :
    List PdfEvent :=
  pdfPage1 d inv ++ (pdfPage2 d).1 ++ pdfPage3 (pdfPage2 d).2 photos

/-! ## DOCX builder embedding (build_docx, app.py lines 38-140)

The document body is the ordered list of blocks appended to the document.
A grid cell holds an optional inline: the code only ever places pictures in
cells, but the cell type also allows text so that the claim about notices
inside cells can be stated and refuted.  A failed add_picture happens after
the row table was already created, so the row block exists with the cell
left empty and the notice paragraph is appended after the table. -/

inductive DocxInline where
  | pic (path : String)
  | txt (s : String)
deriving DecidableEq

inductive Block where
  | para (style : Option String) (text : String)
  | table (rows : List (List String))
  | photoRow (cells : List (Option DocxInline))
  | image (path : String)
  | pageBreak
deriving DecidableEq

/-- The grid cell a photo receives: its picture when it decodes, otherwise
the cell stays empty. -/
def cellOf (f : ImageFile) : Option DocxInline :=
  if f.dims.isSome then some (DocxInline.pic f.path) else none

/-- The failure notice paragraph of app.py line 135. -/
def noticeText (path : String) : String :=
  "(Unable to add image: " ++ pyBasename path ++ ")"

/-- The notice paragraphs appended for a photo: one when its decode fails,
none otherwise. -/
def noticeOf (f : ImageFile) : List Block :=
  if f.dims.isSome then [] else [Block.para none (noticeText f.path)]

/-- The photo grid of build_docx (lines 124-135): a fresh 2-cell row table
on every even index, pictures placed into the cells, failure notices
appended as paragraphs after the current table. -/
def docxPhotoGrid : List ImageFile → List Block
  | [] => []
  | [p] => Block.photoRow [cellOf p, none] :: noticeOf p
  | p :: q :: rest =>
    Block.photoRow [cellOf p, cellOf q] ::
      (noticeOf p ++ (noticeOf q ++ docxPhotoGrid rest))

/-- The photo page of build_docx (lines 123-137). -/
def docxPhotoSection (photos : List ImageFile) : List Block :=
  Block.para (some "Heading 1") "Event Photographs" ::
    (if photos.isEmpty then [Block.para none "No photos uploaded."]
     else docxPhotoGrid photos)

/-- The invitation block of build_docx (lines 62-68): the picture when an
invitation is present and decodes, the circular text otherwise. -/
def docxInvitationBlocks (inv : Option ImageFile) (circ : String) : List Block :=
  match inv with
  | some f => if f.dims.isSome then [Block.image f.path] else [Block.para none circ]
  | none => [Block.para none circ]

/-- The whole build_docx document: the page header content (logo attempt
plus college name, applied to every page) and the body blocks in order. -/
structure DocxFile where
  headerLogo : Bool
  headerText : String
  body : List Block
deriving DecidableEq

def buildDocx (d : EventRecord) (logoOk : Bool) (inv : Option ImageFile)
    (photos : List ImageFile) : DocxFile :=
  { headerLogo := logoOk
    headerText := "\nSURYA ENGINEERING COLLEGE, ERODE"
    body :=
      Block.para none ""
        :: Block.para none ("Ref: " ++ d.ref_no ++ "\t\t\tDate: " ++ d.date_ref ++ "\n")
        :: Block.para (some "Intense Quote") "\nCIRCULAR\n"
        :: (docxInvitationBlocks inv d.circular_text
        ++ [Block.para none "\n\nHoD\t\t\t\tPRINCIPAL",
            Block.para none "\nCopy to\nAll HoD\x27s\nNotice board\nTo be read in all class rooms",
            Block.pageBreak,
            Block.para (some "Title") ("DEPARTMENT OF " ++ d.department),
            Block.para (some "Heading 1") "REPORT OF THE EVENT",
            Block.table [["Name of the activity", d.title],
                         ["Department", d.department],
                         ["Academic year", d.academic_year],
                         ["Date of activity conducted", d.date_activity],
                         ["Organized by", d.organized_by]],
            Block.para none "\n",
            Block.para (some "Heading 2") "Workshop Overview",
            Block.para none d.overview]
        ++ (if d.day1 = "" then []
            else [Block.para (some "Heading 3") "\nDay 1: Fundamentals and Demonstrations",
                  Block.para none d.day1])
        ++ (if d.day2 = "" then []
            else [Block.para (some "Heading 3") "\nDay 2: Advanced Troubleshooting and Maintenance",
                  Block.para none d.day2])
        ++ (if d.learning_outcomes = "" then []
            else [Block.para (some "Heading 2") "\nLearning Outcomes",
                  Block.para none d.learning_outcomes])
        ++ [Block.para (some "Heading 2") "\nConclusion",
            Block.para none d.conclusion,
            Block.para none "\n\nFunction was inaugurated by our resource person\n\n",
            Block.table [["\n\nHoD", "\n\nPRINCIPAL"]],
            Block.pageBreak]
        ++ docxPhotoSection photos) }

/-! ## C2: page breaks in the report text sections -/

/-- Projection of a PDF trace to the y positions of its wrapped section
lines, in drawing order. -/
def sectionLineYs (evs : List PdfEvent) : List ℚ :=
  evs.filterMap (fun e => match e with
    | PdfEvent.sectionLine y _ => some y
    | _ => none)

theorem hA4_sub_120_ge : (120 : ℚ) ≤ hA4 - 120 := by
  norm_num [hA4]

theorem emitBody_ys_ge (lines : List String) :
    ∀ (y : ℚ), 120 ≤ y → ∀ q ∈ sectionLineYs (emitBodyGo y lines).1, 120 ≤ q := by
  induction lines with
  | nil => intro y _ q hq; simp [emitBodyGo, sectionLineYs] at hq
  | cons ln rest ih =>
    intro y hy q hq
    simp only [emitBodyGo] at hq
    split at hq
    · rename_i hlt
      simp only [sectionLineYs, List.filterMap_cons] at hq
      rcases List.mem_cons.mp hq with h | h
      · subst h; exact hy
      · exact ih (hA4 - 120) hA4_sub_120_ge q h
    · rename_i hge
      simp only [sectionLineYs, List.filterMap_cons] at hq
      rcases List.mem_cons.mp hq with h | h
      · subst h; exact hy
      · exact ih (y - 14) (le_of_not_lt hge) q h

theorem emitBody_final_ge (lines : List String) :
    ∀ (y : ℚ), lines ≠ [] → 120 ≤ (emitBodyGo y lines).2 := by
  induction lines with
  | nil => intro y h; exact absurd rfl h
  | cons ln rest ih =>
    intro y _
    simp only [emitBodyGo]
    split
    · rename_i hlt
      cases rest with
      | nil => exact hA4_sub_120_ge
      | cons r rs => exact ih (hA4 - 120) (by simp)
    · rename_i hge
      cases rest with
      | nil => exact le_of_not_lt hge
      | cons r rs => exact ih (y - 14) (by simp)

/-- C2 (amended): in every wrapped text section the painter draws a line
first and only then decrements the cursor and tests it against the bottom
margin, so every section line after the first one of its section is drawn
at a y position at least 120, and the cursor left behind by a non-empty
section is at least 120; the first line of a section is drawn wherever the
preceding content left the cursor, which can be under the margin. -/
theorem claim_C2_amended (y0 : ℚ) (lines : List String) :
    (∀ q ∈ (sectionLineYs (emitBodyGo y0 lines).1).drop 1, 120 ≤ q)
    ∧ (lines ≠ [] → 120 ≤ (emitBodyGo y0 lines).2) := by
  constructor
  · cases lines with
    | nil => intro q hq; simp [emitBodyGo, sectionLineYs] at hq
    | cons ln rest =>
      intro q hq
      simp only [emitBodyGo] at hq
      split at hq
      · rename_i hlt
        simp only [sectionLineYs, List.filterMap_cons, List.drop_succ_cons,
          List.drop_zero] at hq
        exact emitBody_ys_ge rest (hA4 - 120) hA4_sub_120_ge q hq
      · rename_i hge
        simp only [sectionLineYs, List.filterMap_cons, List.drop_succ_cons,
          List.drop_zero] at hq
        exact emitBody_ys_ge rest (y0 - 14) (le_of_not_lt hge) q hq
  · exact emitBody_final_ge lines y0

/-- Witness for the amended C2 at a concrete input: two lines entered at
cursor 130; the second line is drawn at the reset position 106920/127 - 120
and the final cursor is also at least 120. -/
theorem claim_C2_amended_witness :
    ((120 : ℚ) ≤ 106920 / 127 - 120) ∧ ((120 : ℚ) ≤ (emitBodyGo 130 ["a", "b"]).2) :=
  ⟨(claim_C2_amended 130 ["a", "b"]).1 (106920 / 127 - 120)
      (by norm_num [emitBodyGo, sectionLineYs, hA4, List.filterMap_cons]),
   (claim_C2_amended 130 ["a", "b"]).2 (by simp)⟩

/-- Concrete report data for the C2 counterexample: an overview wrapping to
31 lines of one 50-character word each, and a one-line day1 section. -/
def cexOverview : String :=
  String.intercalate " " (List.replicate 31 (String.mk (List.replicate 50 'a')))

def cexData : EventRecord :=
  ⟨"", "", "", "", "", "", "", cexOverview, "x", "", "", "", ""⟩

def isSectionLineBelow (e : PdfEvent) : Bool :=
  match e with
  | PdfEvent.sectionLine y _ => decide (y < 120)
  | _ => false

set_option maxRecDepth 100000 in
/-- Counterexample to C2 as stated: on cexData the report page of build_pdf
draws a wrapped section line (the first line of the day1 section) at a y
position strictly below the 120 point bottom margin, because the overview
ends with the cursor just above the margin and the day1 heading offsets 8
plus 16 are applied without any margin check before the first line. -/
theorem claim_C2_counterexample :
    ((pdfPage2 cexData).1.any isSectionLineBelow) = true := by
  with_unfolding_all decide

/-! ## C3: the PDF photo grid -/

def gridPathOf (e : PdfEvent) : Option String :=
  match e with
  | PdfEvent.gridImage _ _ _ p _ _ _ _ => some p
  | _ => none

theorem gridGo_paths (photos : List ImageFile) :
    ∀ (yStart y : ℚ) (col row idx : Nat),
      (gridGo yStart y col row idx photos).filterMap gridPathOf =
        (photos.filter (fun f => f.dims.isSome)).map ImageFile.path := by
  induction photos with
  | nil => intro yStart y col row idx; simp [gridGo]
  | cons p rest ih =>
    intro yStart y col row idx
    rcases hd : p.dims with _ | ⟨iw, ih2⟩
    · simp only [gridGo, hd]
      split
      · split
        · simp [gridPathOf, List.filterMap_cons, ih, List.filter_cons, hd]
        · simp [List.filter_cons, hd, ih]
      · simp [List.filter_cons, hd, ih]
    · simp only [gridGo, hd]
      split
      · split
        · simp [gridPathOf, List.filterMap_cons, ih, List.filter_cons, hd]
        · simp [gridPathOf, List.filterMap_cons, ih, List.filter_cons, hd]
      · simp [gridPathOf, List.filterMap_cons, ih, List.filter_cons, hd]

theorem gridGo_mem (photos : List ImageFile) :
    ∀ (yStart y : ℚ) (col row idx : Nat), col = idx % 2 →
      ∀ i c r p x yy wd ht,
        PdfEvent.gridImage i c r p x yy wd ht ∈ gridGo yStart y col row idx photos →
        c = i % 2 ∧ idx ≤ i ∧
          ∃ f, photos.get? (i - idx) = some f ∧ f.path = p ∧ f.dims.isSome = true := by
  induction photos with
  | nil => intro yStart y col row idx hcol i c r p x yy wd ht hmem; simp [gridGo] at hmem
  | cons ph rest ih =>
    intro yStart y col row idx hcol i c r p x yy wd ht hmem
    have hnext : ∀ (ys y2 : ℚ) (col2 row2 : Nat), col2 = (idx + 1) % 2 →
        PdfEvent.gridImage i c r p x yy wd ht ∈ gridGo ys y2 col2 row2 (idx + 1) rest →
        c = i % 2 ∧ idx ≤ i ∧
          ∃ f, (ph :: rest).get? (i - idx) = some f ∧ f.path = p ∧ f.dims.isSome = true := by
      intro ys y2 col2 row2 hc2 hm2
      obtain ⟨h1, h2, f, h3, h4, h5⟩ := ih ys y2 col2 row2 (idx + 1) hc2 i c r p x yy wd ht hm2
      refine ⟨h1, by omega, f, ?_, h4, h5⟩
      have hidx : i - idx = (i - (idx + 1)) + 1 := by omega
      rw [hidx, List.get?_cons_succ]
      exact h3
    rcases hd : ph.dims with _ | ⟨iw, ihh⟩
    · simp only [gridGo, hd] at hmem
      split at hmem
      · rename_i hcolgt
        split at hmem
        · rcases List.mem_cons.mp hmem with h | h
          · exact absurd h (by simp)
          · rcases List.mem_cons.mp h with h' | h'
            · exact absurd h' (by simp)
            · exact hnext _ _ _ _ (by omega) h'
        · exact hnext _ _ _ _ (by omega) hmem
      · exact hnext _ _ _ _ (by omega) hmem
    · simp only [gridGo, hd] at hmem
      split at hmem
      · rename_i hcolgt
        split at hmem
        · rcases List.mem_cons.mp hmem with h | h
          · obtain ⟨rfl, rfl, rfl, rfl, _, _, _, _⟩ := PdfEvent.gridImage.inj h.symm
            exact ⟨hcol, Nat.le_refl _, ph, by simp [hd], rfl, by simp [hd]⟩
          · rcases List.mem_cons.mp h with h' | h'
            · exact absurd h' (by simp)
            · rcases List.mem_cons.mp h' with h'' | h''
              · exact absurd h'' (by simp)
              · exact hnext _ _ _ _ (by omega) h''
        · rcases List.mem_cons.mp hmem with h | h
          · obtain ⟨rfl, rfl, rfl, rfl, _, _, _, _⟩ := PdfEvent.gridImage.inj h.symm
            exact ⟨hcol, Nat.le_refl _, ph, by simp [hd], rfl, by simp [hd]⟩
          · exact hnext _ _ _ _ (by omega) h
      · rcases List.mem_cons.mp hmem with h | h
        · obtain ⟨rfl, rfl, rfl, rfl, _, _, _, _⟩ := PdfEvent.gridImage.inj h.symm
          exact ⟨hcol, Nat.le_refl _, ph, by simp [hd], rfl, by simp [hd]⟩
        · exact hnext _ _ _ _ (by omega) h

/-- C3 (amended): the grid advances column-then-row; the images drawn are
exactly the decodable photos in input order (failed decodes are silently
skipped, the cell stays blank and the index advances), and every drawn
photo with input index i sits in column i mod 2.  After each completed row
the loop tests y - rowH against 120, where y is the bottom edge of the most
recently successfully drawn photo (unchanged by failed decodes), and on a
break starts a new page, redraws the header and resets the row counter to
0; since short images keep that y high, a row can still be drawn below the
bottom margin, and the decision depends on image sizes and decode outcomes,
not on the column and row indices alone. -/
theorem claim_C3_amended (y0 : ℚ) (photos : List ImageFile) :
    ((pdfGrid y0 photos).filterMap gridPathOf =
      (photos.filter (fun f => f.dims.isSome)).map ImageFile.path)
    ∧ (∀ i c r p x yy wd ht,
        PdfEvent.gridImage i c r p x yy wd ht ∈ pdfGrid y0 photos →
        c = i % 2 ∧ ∃ f, photos.get? i = some f ∧ f.path = p ∧ f.dims.isSome = true) := by
  constructor
  · exact gridGo_paths photos (hA4 - 160) y0 0 0 0
  · intro i c r p x yy wd ht hmem
    obtain ⟨h1, _, f, h3, h4, h5⟩ :=
      gridGo_mem photos (hA4 - 160) y0 0 0 0 rfl i c r p x yy wd ht hmem
    exact ⟨h1, f, by simpa using h3, h4, h5⟩

def wPhotos3 : List ImageFile :=
  [⟨"uploads/p1.png", some (100, 50)⟩, ⟨"uploads/bad2.png", none⟩,
   ⟨"uploads/p3.png", some (80, 80)⟩]

/-- Witness for the amended C3 at a concrete input: two decodable photos
around a failed one; the drawn paths are exactly the decodable ones in
order, and the first drawn event sits at index 0 in column 0. -/
theorem claim_C3_amended_witness :
    ((pdfGrid 500 wPhotos3).filterMap gridPathOf =
      (wPhotos3.filter (fun f => f.dims.isSome)).map ImageFile.path)
    ∧ (0 = 0 % 2 ∧ ∃ f, wPhotos3.get? 0 = some f ∧
        f.path = "uploads/p1.png" ∧ f.dims.isSome = true) :=
  ⟨(claim_C3_amended 500 wPhotos3).1,
   (claim_C3_amended 500 wPhotos3).2 0 0 0 "uploads/p1.png"
     50 (71510 / 127) (30180 / 127) (15090 / 127)
     (by
       simp only [pdfGrid, gridGo, wPhotos3]
       norm_num [xPos, colW, scaleOf, wA4, hA4, rowH, min_def])⟩

/-- The ten short photos of the C3 counterexample: each decodes to 100 by 1
pixels, so each drawn image is only about 2.4 points tall and the grid
break test y - rowH < 120 keeps failing. -/
def shortPhotos : List ImageFile := List.replicate 10 ⟨"s.png", some (100, 1)⟩

def isGridBelow (e : PdfEvent) : Bool :=
  match e with
  | PdfEvent.gridImage _ _ _ _ _ y _ _ => decide (y < 120)
  | _ => false

set_option maxRecDepth 10000 in
/-- Counterexample to C3 as stated: with ten 100 by 1 photos the fifth grid
row is drawn with its bottom edge below the 120 point bottom margin and no
page break precedes it, because the break test subtracts the full row
height from the bottom edge of the previous, very short, image. -/
theorem claim_C3_counterexample :
    ((pdfGrid 130 shortPhotos).any isGridBelow) = true := by
  with_unfolding_all decide

/-! ## C4: zero photos -/

def pdfTextOf (e : PdfEvent) : Option String :=
  match e with
  | PdfEvent.fixed _ _ _ s => some s
  | PdfEvent.sectionHeading _ s => some s
  | PdfEvent.sectionLine _ s => some s
  | _ => none

def isNoPhotosNotice (b : Block) : Bool :=
  match b with
  | Block.para _ s => s == "No photos uploaded."
  | _ => false

/-- Counterexample to C4 as stated: with zero photos the PDF photo page
draws no text besides the page title, so it does not show any no-photos
notice. -/
theorem claim_C4_counterexample :
    (pdfPage3 121 []).filterMap pdfTextOf = ["Event Photographs"] := by
  rfl

/-- C4 (amended): for zero photos the word-processor photo page renders the
heading followed by exactly one no-photos notice and no grid rows, while
the PDF photo page shows only the header and the page title, with no
notice and no grid rows. -/
theorem claim_C4_amended (y0 : ℚ) :
    docxPhotoSection [] =
      [Block.para (some "Heading 1") "Event Photographs",
       Block.para none "No photos uploaded."]
    ∧ (docxPhotoSection []).countP isNoPhotosNotice = 1
    ∧ pdfPage3 y0 [] =
      [PdfEvent.header,
       PdfEvent.fixed (wA4 / 2) (hA4 - 120) Align.center "Event Photographs"] := by
  refine ⟨rfl, rfl, ?_⟩
  simp [pdfPage3, pdfGrid, gridGo]

/-! ## C5: failed photos in the word-processor grid -/

def rowCellsOf (b : Block) : Option (List (Option DocxInline)) :=
  match b with
  | Block.photoRow cells => some cells
  | _ => none

/-- The grid cells of a block list, row by row and left to right; the cell
of photo i is entry i because every row table has exactly two cells. -/
def gridCells (bs : List Block) : List (Option DocxInline) :=
  (bs.filterMap rowCellsOf).flatten

theorem gridCells_cons_row (cells : List (Option DocxInline)) (l : List Block) :
    gridCells (Block.photoRow cells :: l) = cells ++ gridCells l := by
  simp [gridCells, List.filterMap_cons, rowCellsOf]

theorem gridCells_notice (f : ImageFile) (l : List Block) :
    gridCells (noticeOf f ++ l) = gridCells l := by
  simp only [gridCells, noticeOf]
  split
  · simp
  · simp [List.filterMap_cons, rowCellsOf]

theorem gridCells_notice_nil (f : ImageFile) : gridCells (noticeOf f) = [] := by
  simp only [gridCells, noticeOf]
  split
  · simp
  · simp [List.filterMap_cons, rowCellsOf]

/-- The per-photo contract of the docx grid, by recursion mirroring the
pairwise grid construction. -/
theorem docxPhotoGrid_spec :
    ∀ (photos : List ImageFile) (i : Nat) (f : ImageFile),
      photos.get? i = some f →
      ((f.dims = none →
          (gridCells (docxPhotoGrid photos)).get? i = some none ∧
          Block.para none (noticeText f.path) ∈ docxPhotoGrid photos)
       ∧ (f.dims ≠ none →
          (gridCells (docxPhotoGrid photos)).get? i =
            some (some (DocxInline.pic f.path))))
  | [], i, f, h => by simp at h
  | [p], 0, f, h => by
    injection h with h'
    subst h'
    have hshape : gridCells (docxPhotoGrid [p]) = [cellOf p, none] := by
      show gridCells (Block.photoRow [cellOf p, none] :: noticeOf p) = _
      rw [gridCells_cons_row]
      rw [show gridCells (noticeOf p) = [] from gridCells_notice_nil p]
      rfl
    constructor
    · intro hdim
      constructor
      · rw [hshape]; simp [cellOf, hdim]
      · show Block.para none (noticeText p.path) ∈
          Block.photoRow [cellOf p, none] :: noticeOf p
        simp [noticeOf, hdim]
    · intro hdim
      rcases hd : p.dims with _ | v
      · exact absurd hd hdim
      · rw [hshape]; simp [cellOf, hd]
  | [p], (i + 1), f, h => by simp at h
  | p :: q :: rest, 0, f, h => by
    injection h with h'
    subst h'
    have hshape : gridCells (docxPhotoGrid (p :: q :: rest)) =
        cellOf p :: cellOf q :: gridCells (docxPhotoGrid rest) := by
      show gridCells (Block.photoRow [cellOf p, cellOf q] ::
        (noticeOf p ++ (noticeOf q ++ docxPhotoGrid rest))) = _
      rw [gridCells_cons_row, gridCells_notice, gridCells_notice]
      rfl
    constructor
    · intro hdim
      constructor
      · rw [hshape]; simp [cellOf, hdim]
      · show Block.para none (noticeText p.path) ∈
          Block.photoRow [cellOf p, cellOf q] ::
            (noticeOf p ++ (noticeOf q ++ docxPhotoGrid rest))
        simp [noticeOf, hdim]
    · intro hdim
      rcases hd : p.dims with _ | v
      · exact absurd hd hdim
      · rw [hshape]; simp [cellOf, hd]
  | p :: q :: rest, 1, f, h => by
    injection h with h'
    subst h'
    have hshape : gridCells (docxPhotoGrid (p :: q :: rest)) =
        cellOf p :: cellOf q :: gridCells (docxPhotoGrid rest) := by
      show gridCells (Block.photoRow [cellOf p, cellOf q] ::
        (noticeOf p ++ (noticeOf q ++ docxPhotoGrid rest))) = _
      rw [gridCells_cons_row, gridCells_notice, gridCells_notice]
      rfl
    constructor
    · intro hdim
      constructor
      · rw [hshape]; simp [cellOf, hdim]
      · show Block.para none (noticeText q.path) ∈
          Block.photoRow [cellOf p, cellOf q] ::
            (noticeOf p ++ (noticeOf q ++ docxPhotoGrid rest))
        simp [noticeOf, hdim]
    · intro hdim
      rcases hd : q.dims with _ | v
      · exact absurd hd hdim
      · rw [hshape]; simp [cellOf, hd]
  | p :: q :: rest, (i + 2), f, h => by
    have hrest := docxPhotoGrid_spec rest i f h
    have hshape : gridCells (docxPhotoGrid (p :: q :: rest)) =
        cellOf p :: cellOf q :: gridCells (docxPhotoGrid rest) := by
      show gridCells (Block.photoRow [cellOf p, cellOf q] ::
        (noticeOf p ++ (noticeOf q ++ docxPhotoGrid rest))) = _
      rw [gridCells_cons_row, gridCells_notice, gridCells_notice]
      rfl
    constructor
    · intro hdim
      refine ⟨?_, ?_⟩
      · rw [hshape]
        exact (hrest.1 hdim).1
      · have hm := (hrest.1 hdim).2
        show Block.para none (noticeText f.path) ∈
          Block.photoRow [cellOf p, cellOf q] ::
            (noticeOf p ++ (noticeOf q ++ docxPhotoGrid rest))
        exact List.mem_cons_of_mem _
          (List.mem_append_right _ (List.mem_append_right _ hm))
    · intro hdim
      rw [hshape]
      exact hrest.2 hdim

/-- C5 (amended): in the word-processor grid a photo that fails to decode
leaves its own grid cell empty and a paragraph notice naming the file is
appended to the document after the grid row; the build never aborts (the
grid is a total function of the decode outcomes) and a photo that decodes
keeps its picture in its own cell, so the layout of the remaining photos
continues undisturbed. -/
theorem claim_C5_amended (photos : List ImageFile) (i : Nat) (f : ImageFile)
    (h : photos.get? i = some f) :
    ((f.dims = none →
        (gridCells (docxPhotoGrid photos)).get? i = some none ∧
        Block.para none (noticeText f.path) ∈ docxPhotoGrid photos)
     ∧ (f.dims ≠ none →
        (gridCells (docxPhotoGrid photos)).get? i =
          some (some (DocxInline.pic f.path)))) :=
  docxPhotoGrid_spec photos i f h

/-- The undecodable photo of the C5 counterexample and witness. -/
def badPhoto : ImageFile := ⟨"uploads/bad.png", none⟩

def cellHasText (c : Option DocxInline) : Bool :=
  match c with
  | some (DocxInline.txt _) => true
  | _ => false

/-- Counterexample to C5 as stated: for one undecodable photo the grid row
keeps both cells empty and the notice is a separate paragraph appended
after the table, so no grid cell ever contains a text notice. -/
theorem claim_C5_counterexample :
    docxPhotoGrid [badPhoto] =
      [Block.photoRow [none, none],
       Block.para none "(Unable to add image: bad.png)"]
    ∧ (gridCells (docxPhotoGrid [badPhoto])).any cellHasText = false :=
  ⟨by decide, by decide⟩

def wPhotos5 : List ImageFile := [⟨"uploads/a.png", some (10, 10)⟩, badPhoto]

/-- Witness for the amended C5 at a concrete input: the second photo fails
to decode, its cell is empty and the notice paragraph is present. -/
theorem claim_C5_amended_witness :
    (gridCells (docxPhotoGrid wPhotos5)).get? 1 = some none
    ∧ Block.para none (noticeText "uploads/bad.png") ∈ docxPhotoGrid wPhotos5 :=
  (claim_C5_amended wPhotos5 1 badPhoto rfl).1 rfl

/-! ## C6: the invitation fallback -/

/-- C6: when an invitation image is present but undecodable, build_docx
renders the circular_text paragraph in its place without aborting, and when
no invitation is present the circular_text paragraph is rendered as well. -/
theorem claim_C6 (inv : Option ImageFile) (circ : String) :
    (∀ f, inv = some f → f.dims = none →
        docxInvitationBlocks inv circ = [Block.para none circ])
    ∧ (inv = none → docxInvitationBlocks inv circ = [Block.para none circ]) := by
  constructor
  · intro f hf hdim
    subst hf
    simp [docxInvitationBlocks, hdim]
  · intro h
    subst h
    rfl

/-- Witness for C6 at a concrete input: an undecodable invitation image
falls back to the circular text paragraph. -/
theorem claim_C6_witness :
    docxInvitationBlocks (some ⟨"uploads/inv.png", none⟩) "CIRCULAR BODY" =
      [Block.para none "CIRCULAR BODY"] :=
  (claim_C6 (some ⟨"uploads/inv.png", none⟩) "CIRCULAR BODY").1
    ⟨"uploads/inv.png", none⟩ rfl rfl

/-! ## Filenames and the generate route (app.py lines 333-391) -/

/-- str.replace of spaces by underscores, as applied to the title. -/
def replaceSpaces (s : String) : String :=
  String.mk (s.toList.map (fun c => if c = ' ' then '_' else c))

/-- The character class kept by the werkzeug sanitizer regular expression
(ASCII letters, digits, underscore, dot, dash). -/
def sfKeep (c : Char) : Bool :=
  c.isAlpha || c.isDigit || c = '_' || c = '.' || c = '-'

def isDotUnderscore (c : Char) : Bool := c = '.' || c = '_'

/-- werkzeug.utils.secure_filename on a posix system, modelled for ASCII
input (the NFKD normalisation followed by the ascii encode-ignore step is
the identity there; non-ASCII characters are dropped by the keep filter
either way, except for characters whose NFKD form contains ASCII): replace
the path separator by a space, join the whitespace-split words with
underscores, remove every character outside the kept class, and strip
leading and trailing dots and underscores. -/
def secureFilename (s : String) : String :=
  let slashed := s.toList.map (fun c => if c = '/' then ' ' else c)
  let words := (splitRuns slashed).filter (fun r => !(r.all pyIsSpace))
  let joined := List.intercalate ['_'] words
  let kept := joined.filter sfKeep
  String.mk (((kept.dropWhile isDotUnderscore).reverse.dropWhile
    isDotUnderscore).reverse)

/-- The base output name of both artifacts (app.py line 366): the blank
title falls back to the default event, spaces become underscores, then the
sanitizer runs. -/
def baseName (title : String) : String :=
  secureFilename (replaceSpaces (if title = "" then "event" else title))

def docxPath (title : String) : String := "outputs/" ++ baseName title ++ ".docx"

def pdfPath (title : String) : String := "outputs/" ++ baseName title ++ ".pdf"

inductive GenResult where
  | aborted (flashMsg : String)
  | preview (docxName pdfName : String)
deriving DecidableEq

structure GenOutcome where
  result : GenResult
  docxWritten : Bool
  pdfWritten : Bool
deriving DecidableEq

/-- The error handling of the generate route (lines 370-391), over abstract
build outcomes: an exception text for each builder when it fails, none when
it succeeds.  A DOCX failure flashes the error and redirects before the PDF
build is attempted, so no artifact is produced; a PDF failure is swallowed
and the preview is rendered with both artifact names regardless. -/
def generate (title : String) (docxErr pdfErr : Option String) : GenOutcome :=
  match docxErr with
  | some e => ⟨GenResult.aborted ("Error creating DOCX: " ++ e), false, false⟩
  | none =>
    ⟨GenResult.preview (baseName title ++ ".docx") (baseName title ++ ".pdf"),
     true, pdfErr.isNone⟩

/-- C7: a DOCX build failure aborts the request with the user-visible flash
message and neither artifact is produced, while a PDF build failure is
silently tolerated: the request still succeeds with the DOCX written and
the preview rendered. -/
theorem claim_C7 (title e : String) (pdfErr : Option String) :
    generate title (some e) pdfErr =
      ⟨GenResult.aborted ("Error creating DOCX: " ++ e), false, false⟩
    ∧ (generate title none pdfErr).result =
        GenResult.preview (baseName title ++ ".docx") (baseName title ++ ".pdf")
    ∧ (generate title none pdfErr).docxWritten = true
    ∧ (generate title none (some e)).pdfWritten = false :=
  ⟨rfl, rfl, rfl, rfl⟩

/-! ## C8: determinism of the builders -/

/-- C8: the builders are pure functions of the event record, the header
logo decode outcome and the image decode outcomes: the source never reads a
clock or any other ambient state while building (no timestamp is embedded),
so two runs on identical inputs produce identical documents. -/
theorem claim_C8 (d1 d2 : EventRecord) (l1 l2 : Bool) (inv1 inv2 : Option ImageFile)
    (ph1 ph2 : List ImageFile) (hd : d1 = d2) (hl : l1 = l2) (hi : inv1 = inv2)
    (hp : ph1 = ph2) :
    buildDocx d1 l1 inv1 ph1 = buildDocx d2 l2 inv2 ph2 ∧
    buildPdf d1 inv1 ph1 = buildPdf d2 inv2 ph2 := by
  subst hd
  subst hl
  subst hi
  subst hp
  exact ⟨rfl, rfl⟩

def sampleData : EventRecord :=
  ⟨"R1", "2024-01-01", "Robotics Workshop", "CSE", "2024-25", "2024-01-02",
   "Dept of CSE", "An overview.", "", "", "", "A conclusion.", "Circular body"⟩

/-- Witness for C8 at a concrete input. -/
theorem claim_C8_witness :
    buildDocx sampleData true none [] = buildDocx sampleData true none [] ∧
    buildPdf sampleData none [] = buildPdf sampleData none [] :=
  claim_C8 sampleData sampleData true true none none [] [] rfl rfl rfl rfl

/-! ## C9: output artifact names -/

/-- C9: both artifact paths share the deterministic base name derived from
the sanitized title with spaces replaced by underscores; the blank title
falls back to the default name event, and the title Robotics Workshop
yields the base name Robotics_Workshop for both artifacts. -/
theorem claim_C9 :
    baseName "Robotics Workshop" = "Robotics_Workshop"
    ∧ baseName "" = "event"
    ∧ ∀ t, docxPath t = "outputs/" ++ baseName t ++ ".docx"
         ∧ pdfPath t = "outputs/" ++ baseName t ++ ".pdf" :=
  ⟨by decide, by decide, fun t => ⟨rfl, rfl⟩⟩

/-! ## C10: the download route (app.py lines 393-403) -/

inductive DownloadResult where
  | notFound (body : String)
  | attachment (path : String)
deriving DecidableEq

/-- The download route over an abstract listing of the files present in the
outputs folder: the pdf format selector first returns its own not-found
message when the file is absent, then any absent file returns the generic
message, and otherwise the file is sent as an attachment. -/
def download (fmt filename : String) (present : List String) : DownloadResult :=
  if fmt = "pdf" ∧ ¬ ("outputs/" ++ filename) ∈ present then
    DownloadResult.notFound "PDF not available"
  else if ¬ ("outputs/" ++ filename) ∈ present then
    DownloadResult.notFound "File not found"
  else DownloadResult.attachment ("outputs/" ++ filename)

/-- C10: for every format selector and filename, the download route returns
the stored file as an attachment whenever it is present, whatever the
selector; the selector only chooses the not-found message when the file is
absent. -/
theorem claim_C10 (fmt filename : String) (present : List String) :
    (("outputs/" ++ filename) ∈ present →
        download fmt filename present =
          DownloadResult.attachment ("outputs/" ++ filename))
    ∧ (("outputs/" ++ filename) ∉ present →
        download fmt filename present =
          DownloadResult.notFound
            (if fmt = "pdf" then "PDF not available" else "File not found")) := by
  constructor
  · intro hmem
    simp only [download]
    rw [if_neg (fun h => h.2 hmem), if_neg (not_not_intro hmem)]
  · intro hmem
    by_cases hf : fmt = "pdf"
    · simp only [download]
      rw [if_pos ⟨hf, hmem⟩, if_pos hf]
    · simp only [download]
      rw [if_neg (fun h => hf h.1), if_pos hmem, if_neg hf]

/-- Witness for C10 at concrete inputs: a present file is attached even for
an unknown selector, and an absent file with a non-pdf selector reports the
generic message. -/
theorem claim_C10_witness :
    download "weird" "a.pdf" ["outputs/a.pdf"] =
      DownloadResult.attachment ("outputs/" ++ "a.pdf")
    ∧ download "xyz" "b.pdf" [] = DownloadResult.notFound "File not found" :=
  ⟨(claim_C10 "weird" "a.pdf" ["outputs/a.pdf"]).1 (by simp),
   (claim_C10 "xyz" "b.pdf" []).2 (by simp)⟩

end App
